import Mathlib

/-!
Verification development for the text-to-texture-atlas repository.

The C++ sources (Font.hpp / Font.cpp) are shallowly embedded below.
Machine integers (`unsigned int`, `size_t`, byte values) are modelled as
`Nat`, signed quantities (`FT_Pos` bearings and advances, blit offsets)
as `Int`, byte buffers as `List Nat`, and the `float` texture
coordinates as exact rationals (`Rat`); all values appearing in the
program stay far below any overflow boundary, so no modular reduction is
inserted.  The FreeType rasterizer and the texture-operations blit
primitive are external collaborators of the repository; the rasterizer
is abstracted as an input function `Int -> RasterResult`, and the blit
primitive is modelled from the spec (section 4.3 / 6).  The
`std::unordered_map` holding the characters is modelled as an
association list in insertion order together with an explicit iteration
reordering function, because the iteration order of the C++ container is
not specified by the language.
-/

namespace TextToTextureAtlas

/-- Embeds `Font::character::vector2` (Font.hpp): unsigned 2D pixel coordinates. -/
structure vector2 where
  x : Nat := 0
  y : Nat := 0
deriving Repr, DecidableEq

/-- Embeds `Font::character::vector2f` (Font.hpp): the `float` coordinates are
modelled as exact rationals. -/
structure vector2f where
  x : Rat := 0
  y : Rat := 0
deriving Repr, DecidableEq

/-- Embeds `vector2::get_normalized` (Font.hpp lines 133-138): componentwise
division by the atlas dimensions.  The 32-bit float division of the source is
modelled as exact rational division. -/
def vector2.get_normalized (v : vector2) (max_width max_height : Nat) : vector2f :=
  { x := (v.x : Rat) / (max_width : Rat), y := (v.y : Rat) / (max_height : Rat) }

/-- Embeds `Font::character` (Font.hpp): metrics, placement corners, texture
coordinates and the raw 4-channel bitmap of one codepoint. -/
structure character where
  width_ : Nat := 0
  height_ : Nat := 0
  x_bearing_ : Int := 0
  y_bearing_ : Int := 0
  advance_x_ : Int := 0
  advance_y_ : Int := 0
  top_left : vector2 := {}
  top_right : vector2 := {}
  bottom_left : vector2 := {}
  bottom_right : vector2 := {}
  tex_coords_top_left : vector2f := {}
  tex_coords_top_right : vector2f := {}
  tex_coords_bottom_left : vector2f := {}
  tex_coords_bottom_right : vector2f := {}
  raw_bitmap_buffer : List Nat := []
deriving Repr, DecidableEq

/-- The default-constructed `character{}`: every field zero, empty buffer. -/
def zeroCharacter : character := {}

/-- Embeds `Font::atlas` (Font.hpp): the flat RGBA buffer plus its dimensions. -/
structure atlas where
  atlas_buffer : List Nat := []
  width : Nat := 0
  height : Nat := 0
deriving Repr, DecidableEq

/-- One response of the external FreeType rasterizer for one codepoint:
the glyph metrics and the grayscale bitmap (`none` models a null
`bitmap.buffer` pointer). -/
structure GlyphResponse where
  width : Nat := 0
  height : Nat := 0
  x_bearing : Int := 0
  y_bearing : Int := 0
  advance_x : Int := 0
  advance_y : Int := 0
  bitmap : Option (List Nat) := none
deriving Repr, DecidableEq

/-- Outcome of loading and rendering one codepoint through FreeType
(Font.cpp lines 125-138): load failure, render failure, or a rendered glyph. -/
inductive RasterResult
  | loadError
  | renderError
  | ok (g : GlyphResponse)
deriving Repr, DecidableEq

/-- Embeds `isspace(static_cast<char>(i))` for the C locale on the ASCII
codepoints the program handles. -/
def isspaceChar (c : Int) : Bool :=
  c == 32 || c == 9 || c == 10 || c == 11 || c == 12 || c == 13

/-- Status codes of the external `texture_operations::blit_texture` primitive.
Modelled from the spec: the primitive returns a distinct status per failure
class, with destination-bounds violation as the failure class exercised here. -/
inductive BlitStatus
  | SUCCESS
  | DESTINATION_BOUNDS_ERROR
deriving Repr, DecidableEq

/-- Copy of the four (channel) bytes of source pixel `p` into the destination
buffer, part of the modelled blit primitive. -/
def blitWritePixel (dx dy sw dw chs dchs : Nat) (src : List Nat) (dst : List Nat) (p : Nat) : List Nat :=
  (List.range chs).foldl
    (fun d k =>
      d.set (((dy + p / sw) * dw + (dx + p % sw)) * dchs + k) (src.getD (p * chs + k) 0))
    dst

/-- All pixel copies of one blit, row-major over the source rectangle. -/
def blitWrite (dx dy sw sh dw chs dchs : Nat) (src dst : List Nat) : List Nat :=
  (List.range (sh * sw)).foldl (blitWritePixel dx dy sw dw chs dchs src) dst

/-- Modelled from the spec: the external blit primitive
`texture_operations::blit_texture` (spec sections 4.3 and 6), which is not part
of this repository.  It copies the source rectangle into the destination buffer
at offset `(dst_x, dst_y)` and returns a non-success status on a
destination-bounds violation, writing nothing in that case. -/
def blit_texture (dst_x dst_y : Int) (src_w src_h : Nat) (channels : Nat)
    (dst_w dst_h : Nat) (dst_channels : Nat) (src_buffer dst_buffer : List Nat)
    (src_stride dst_stride : Nat) : BlitStatus × List Nat :=
  if dst_x < 0 ∨ dst_y < 0 ∨ dst_x + (src_w : Int) > (dst_w : Int) ∨ dst_y + (src_h : Int) > (dst_h : Int) then
    (BlitStatus.DESTINATION_BOUNDS_ERROR, dst_buffer)
  else
    (BlitStatus.SUCCESS, blitWrite dst_x.toNat dst_y.toNat src_w src_h dst_w channels dst_channels src_buffer dst_buffer)

/-- One iteration of the pixel loop of
`Font::convert_bitmap_to_four_channel_buffer` (Font.cpp lines 186-205):
writes RGB zero and alpha equal to the grayscale source byte at flat index
`flat` of the destination vector. -/
def convertStep (b : List Nat) (d : List Nat) (flat : Nat) : List Nat :=
  let current := b.getD flat 0
  let dst_flat := flat * 4
  if current = 0 then
    ((((d.set dst_flat 0).set (dst_flat + 1) 0).set (dst_flat + 2) 0).set (dst_flat + 3) 0)
  else
    ((((d.set dst_flat 0).set (dst_flat + 1) 0).set (dst_flat + 2) 0).set (dst_flat + 3) current)

/-- Embeds `Font::convert_bitmap_to_four_channel_buffer` (Font.cpp lines
176-210): returns `none` when the glyph bitmap pointer is null (the function
returns `false`), otherwise the destination vector after the double pixel loop,
whose flat index runs 0, 1, ... in row-major order. -/
def convert_bitmap_to_four_channel_buffer (bitmap : Option (List Nat))
    (bitmap_width bitmap_height : Nat) (dst_vector : List Nat) : Option (List Nat) :=
  match bitmap with
  | none => none
  | some b => some ((List.range (bitmap_height * bitmap_width)).foldl (convertStep b) dst_vector)

/-- The ascending list of codepoints `char_range_min .. char_range_max`
walked by the loop in `Font::init_character_map` (Font.cpp line 121). -/
def rangeList (rmin rmax : Int) : List Int :=
  (List.range (rmax + 1 - rmin).toNat).map (fun (k : Nat) => rmin + (k : Int))

/-- Body of `Font::init_character_map` (Font.cpp lines 121-170) as a recursion
over the remaining codepoints.  A load or render failure skips the codepoint;
a null bitmap of a non-whitespace codepoint skips it; otherwise a record is
created with the glyph metrics and a zero-filled buffer of size
`rows * width * 4`, which for non-whitespace glyphs is then filled by the
four-channel conversion.  The result is `none` exactly when the conversion
reports failure (the method returns `false`). -/
def initCharGo (raster : Int → RasterResult) : List Int → Option (List (Int × character))
  | [] => some []
  | i :: rest =>
    match raster i with
    | RasterResult.loadError => initCharGo raster rest
    | RasterResult.renderError => initCharGo raster rest
    | RasterResult.ok g =>
      if g.bitmap.isNone && !(isspaceChar i) then
        initCharGo raster rest
      else
        let flat_size := g.height * g.width * 4
        let current_character : character :=
          { width_ := g.width, height_ := g.height,
            x_bearing_ := g.x_bearing, y_bearing_ := g.y_bearing,
            advance_x_ := g.advance_x, advance_y_ := g.advance_y,
            raw_bitmap_buffer := List.replicate flat_size 0 }
        if isspaceChar i then
          (initCharGo raster rest).map (fun m => (i, current_character) :: m)
        else
          match convert_bitmap_to_four_channel_buffer g.bitmap g.width g.height
              current_character.raw_bitmap_buffer with
          | none => none
          | some buf =>
            (initCharGo raster rest).map
              (fun m => (i, { current_character with raw_bitmap_buffer := buf }) :: m)

/-- Embeds `Font::init_character_map` over the configured codepoint range. -/
def init_character_map (rmin rmax : Int) (raster : Int → RasterResult) :
    Option (List (Int × character)) :=
  initCharGo raster (rangeList rmin rmax)

/-- Embeds `Font::get_max_character_width` (Font.cpp lines 226-235). -/
def get_max_character_width (m : List (Int × character)) : Nat :=
  m.foldl (fun acc p => max p.2.width_ acc) 0

/-- Embeds `Font::get_max_character_height` (Font.cpp lines 239-248). -/
def get_max_character_height (m : List (Int × character)) : Nat :=
  m.foldl (fun acc p => max p.2.height_ acc) 0

/-- Bounded upward search for the least `k` with `n <= k * k`, starting at
`k` with the given fuel. -/
def ceilSqrtFrom (n : Nat) : Nat → Nat → Nat
  | k, 0 => k
  | k, fuel + 1 => if n ≤ k * k then k else ceilSqrtFrom n (k + 1) fuel

/-- Exact value of `std::ceil(sqrt(n))` for a natural number argument
(Font.cpp line 417): the least `k` with `n <= k * k` (see
`ceilSqrt_eq_sqrt` below for the bridge to `Nat.sqrt`). -/
def ceilSqrt (n : Nat) : Nat := ceilSqrtFrom n 0 n

/-- Result of the packing loop of `Font::init_main_atlas_buffer`: the success
flag (`return true` / `return false`), the character store after the loop, the
atlas byte buffer after the loop, and as a ghost observation the codepoints
blitted, in blit order (it influences nothing else; the source keeps a similar
unused `index` counter). -/
structure PackOut where
  ok : Bool
  entries : List (Int × character)
  buffer : List Nat
  placed : List Int
deriving Repr, DecidableEq

/-- The placement and texture-coordinate updates applied to a character record
after a successful blit (Font.cpp lines 494-502). -/
def place (ch : character) (x1 y1 W H : Nat) : character :=
  { ch with
    top_left := ⟨x1, y1⟩
    top_right := ⟨x1 + ch.width_, y1⟩
    bottom_left := ⟨x1, y1 + ch.height_⟩
    bottom_right := ⟨x1 + ch.width_, y1 + ch.height_⟩
    tex_coords_top_left := vector2.get_normalized ⟨x1, y1⟩ W H
    tex_coords_top_right := vector2.get_normalized ⟨x1 + ch.width_, y1⟩ W H
    tex_coords_bottom_left := vector2.get_normalized ⟨x1, y1 + ch.height_⟩ W H
    tex_coords_bottom_right := vector2.get_normalized ⟨x1 + ch.width_, y1 + ch.height_⟩ W H }

/-- The horizontal wrap of the cursor (Font.cpp lines 456-460): back to the
margin when the glyph would exceed the buffer width. -/
def wrapX (W w x : Nat) : Nat := if x + w > W then 5 else x

/-- The vertical advance of the cursor on a wrap (Font.cpp lines 456-460). -/
def wrapY (W w x y iy : Nat) : Nat := if x + w > W then y + iy else y

/-- The blit invocation of the packing loop (Font.cpp lines 464-478): glyph
bitmap into the atlas buffer at the cursor, both buffers 4-channel with
stride 4. -/
def blitFor (W H : Nat) (ch : character) (x1 y1 : Nat) (buf : List Nat) :
    BlitStatus × List Nat :=
  blit_texture (x1 : Int) (y1 : Int) ch.width_ ch.height_ 4 W H 4
    ch.raw_bitmap_buffer buf 4 4

/-- The character loop of `Font::init_main_atlas_buffer` (Font.cpp lines
447-506) over the store in its iteration order.  Whitespace entries are
skipped.  Otherwise the cursor wraps when `x + width > W`, the glyph is
blitted, and on a non-success status the loop aborts (`return false`) leaving
the remaining records untouched; on success the record receives its corners
and texture coordinates and the cursor advances by `ix = cell_w + 5`. -/
def packLoop (W H ix iy : Nat) :
    List (Int × character) → Nat → Nat → List Nat → PackOut
  | [], _x, _y, buf => { ok := true, entries := [], buffer := buf, placed := [] }
  | (c, ch) :: rest, x, y, buf =>
    if isspaceChar c then
      let r := packLoop W H ix iy rest x y buf
      { ok := r.ok, entries := (c, ch) :: r.entries, buffer := r.buffer, placed := r.placed }
    else
      let x1 := wrapX W ch.width_ x
      let y1 := wrapY W ch.width_ x y iy
      if (blitFor W H ch x1 y1 buf).1 = BlitStatus.SUCCESS then
        let r := packLoop W H ix iy rest (x1 + ix) y1 (blitFor W H ch x1 y1 buf).2
        { ok := r.ok, entries := (c, place ch x1 y1 W H) :: r.entries,
          buffer := r.buffer, placed := c :: r.placed }
      else
        { ok := false, entries := (c, ch) :: rest, buffer := buf, placed := [] }

/-- Embeds `Font::init_main_atlas_buffer` (Font.cpp lines 411-511): computes
the atlas dimensions from the maximal glyph sizes and the fixed spacing and
margin constants (both 5), zero-initializes the buffer, and runs the packing
loop from cursor `(5, 5)`. -/
def init_main_atlas_buffer (rmin rmax : Int) (m : List (Int × character)) :
    PackOut × atlas :=
  let max_character_height := get_max_character_height m
  let max_character_width := get_max_character_width m
  let character_range := (rmax - rmin).toNat
  let characters_per_w_and_h := ceilSqrt character_range
  let total_buffer_width := characters_per_w_and_h * max_character_width + 5 * characters_per_w_and_h + 2 * 5
  let total_buffer_height := characters_per_w_and_h * max_character_height + 5 * characters_per_w_and_h + 2 * 5
  let buf0 := List.replicate (total_buffer_width * total_buffer_height * 4) 0
  let r := packLoop total_buffer_width total_buffer_height
    (max_character_width + 5) (max_character_height + 5) m 5 5 buf0
  (r, { atlas_buffer := r.buffer, width := total_buffer_width, height := total_buffer_height })

/-- Embeds the `Font` object state after construction: the character store,
the main atlas, the construction error flag and the configured codepoint
range. -/
structure Font where
  character_map_ : List (Int × character)
  main_atlas_ : atlas
  error_ : Bool
  char_range_min : Int
  char_range_max : Int
deriving Repr, DecidableEq

/-- The construction pipeline of the `Font` constructors (Font.cpp lines
252-361) restricted to the stages internal to the repository:
`init_character_map` followed by `init_main_atlas_buffer`.  `raster` stands
for the already configured FreeType face; `sigma` is the iteration order of the
`std::unordered_map` store, a reordering of the insertion-ordered entries
which the C++ language leaves unspecified. -/
def Font.build (rmin rmax : Int) (raster : Int → RasterResult)
    (sigma : List (Int × character) → List (Int × character)) : Font :=
  match init_character_map rmin rmax raster with
  | none =>
    { character_map_ := [], main_atlas_ := {}, error_ := true,
      char_range_min := rmin, char_range_max := rmax }
  | some m =>
    let r := init_main_atlas_buffer rmin rmax (sigma m)
    { character_map_ := r.1.entries, main_atlas_ := r.2, error_ := !r.1.ok,
      char_range_min := rmin, char_range_max := rmax }

/-- The packing outcome of the build, for stating properties of the loop. -/
def buildPack (rmin rmax : Int) (raster : Int → RasterResult)
    (sigma : List (Int × character) → List (Int × character)) : PackOut :=
  match init_character_map rmin rmax raster with
  | none => { ok := false, entries := [], buffer := [], placed := [] }
  | some m => (init_main_atlas_buffer rmin rmax (sigma m)).1

/-- Embeds `Font::operator bool` (Font.hpp lines 481-484). -/
def Font.toBool (f : Font) : Bool := !f.error_

/-- Association-list lookup in the character store. -/
def lookupChar : List (Int × character) → Int → Option character
  | [], _ => none
  | (c, ch) :: rest, d => if c = d then some ch else lookupChar rest d

/-- Embeds `Font::get_character` (Font.cpp lines 394-401): the
`std::unordered_map` subscript operator returns the stored record, or inserts
and returns a default-constructed record when the key is absent. -/
def get_character (f : Font) (c : Int) : character × Font :=
  match lookupChar f.character_map_ c with
  | some ch => (ch, f)
  | none =>
    (zeroCharacter,
      { f with character_map_ := f.character_map_ ++ [(c, zeroCharacter)] })

/-- Embeds `Font::free_character_buffers` (Font.cpp lines 377-383). -/
def free_character_buffers (f : Font) : Font :=
  { f with character_map_ :=
      f.character_map_.map (fun p => (p.1, { p.2 with raw_bitmap_buffer := [] })) }

/-- Embeds `Font::free_atlas_buffer` (Font.cpp lines 387-390). -/
def free_atlas_buffer (f : Font) : Font :=
  { f with main_atlas_ := { f.main_atlas_ with atlas_buffer := [] } }

/-- The codepoints of the store entries that are not whitespace, in store
order: exactly the codepoints the packing loop attempts to blit. -/
def nonspaceKeys (l : List (Int × character)) : List Int :=
  (l.filter (fun p => !(isspaceChar p.1))).map (fun p => p.1)

/-- Follows the words of the spec (section 4.2, steps 5-6), for comparison
with the embedded loop: walk the non-whitespace glyph widths with a cursor,
wrapping to `x = margin` and advancing `y` by `cell_h + spacing` when
`x + width > atlas_width`, recording each top-left placement, then advancing
`x` by `cell_w + spacing`. -/
def specCursorPlacements (W cw chh : Nat) : List Nat → Nat → Nat → List (Nat × Nat)
  | [], _x, _y => []
  | w :: rest, x, y =>
    let x1 := if x + w > W then 5 else x
    let y1 := if x + w > W then y + (chh + 5) else y
    (x1, y1) :: specCursorPlacements W cw chh rest (x1 + (cw + 5)) y1

/-- Concrete rasterizer: codepoints 33-35 render as 5 by 5 glyphs, the rest of
the range fails to load.  Used to exercise a successful build whose last glyph
touches the right atlas edge. -/
def edgeRaster (i : Int) : RasterResult :=
  if 33 ≤ i ∧ i ≤ 35 then
    RasterResult.ok { width := 5, height := 5, bitmap := some (List.replicate 25 255) }
  else RasterResult.loadError

/-- Concrete rasterizer for the four-codepoint scenario of the spec: 33-36
render as 2 by 2 glyphs. -/
def scenRaster (i : Int) : RasterResult :=
  if 33 ≤ i ∧ i ≤ 36 then
    RasterResult.ok { width := 2, height := 2, bitmap := some (List.replicate 4 255) }
  else RasterResult.loadError

/-- Concrete rasterizer with a whitespace codepoint: 32 is whitespace with a
null bitmap and a nonzero horizontal advance (as FreeType reports for a space
glyph), 33-36 render as 2 by 2 glyphs, the rest fails to load. -/
def wsRaster (i : Int) : RasterResult :=
  if i = 32 then RasterResult.ok { advance_x := 640, bitmap := none }
  else if 33 ≤ i ∧ i ≤ 36 then
    RasterResult.ok { width := 2, height := 2, bitmap := some (List.replicate 4 255) }
  else RasterResult.loadError

/-- Concrete rasterizer whose two 6 by 6 glyphs overflow the one-cell grid of
the range 33-34, so the second blit is rejected by the bounds check. -/
def failRaster (i : Int) : RasterResult :=
  if 33 ≤ i ∧ i ≤ 34 then
    RasterResult.ok { width := 6, height := 6, bitmap := some (List.replicate 36 1) }
  else RasterResult.loadError

/-- The character store produced for the scenario rasterizer on range 33-36. -/
def scenMap : List (Int × character) :=
  (init_character_map 33 36 scenRaster).getD []

/-- The character store produced for `wsRaster` on range 32-37. -/
def wsMap : List (Int × character) :=
  (init_character_map 32 37 wsRaster).getD []

/-- The character store produced for `failRaster` on range 33-34. -/
def failMap : List (Int × character) :=
  (init_character_map 33 34 failRaster).getD []

/-- The record that `init_character_map` stores for codepoint `i`, if any:
`none` for a load or render failure and for a null bitmap of a non-whitespace
codepoint; otherwise the glyph metrics with a zero buffer (whitespace) or the
four-channel converted buffer. -/
def expectedRecord (raster : Int → RasterResult) (i : Int) : Option character :=
  match raster i with
  | RasterResult.loadError => none
  | RasterResult.renderError => none
  | RasterResult.ok g =>
    if g.bitmap.isNone && !(isspaceChar i) then none
    else
      let base : character :=
        { width_ := g.width, height_ := g.height,
          x_bearing_ := g.x_bearing, y_bearing_ := g.y_bearing,
          advance_x_ := g.advance_x, advance_y_ := g.advance_y,
          raw_bitmap_buffer := List.replicate (g.height * g.width * 4) 0 }
      if isspaceChar i then some base
      else
        (convert_bitmap_to_four_channel_buffer g.bitmap g.width g.height
          base.raw_bitmap_buffer).map
          (fun buf => { base with raw_bitmap_buffer := buf })

/-- The atlas width computed by `init_main_atlas_buffer` (Font.cpp lines
414-427): `cells_per_row * cell_w + spacing * cells_per_row + 2 * margin`. -/
def atlasW (rmin rmax : Int) (m : List (Int × character)) : Nat :=
  ceilSqrt (rmax - rmin).toNat * get_max_character_width m +
    5 * ceilSqrt (rmax - rmin).toNat + 2 * 5

/-- The atlas height computed by `init_main_atlas_buffer` (Font.cpp lines
414-427). -/
def atlasH (rmin rmax : Int) (m : List (Int × character)) : Nat :=
  ceilSqrt (rmax - rmin).toNat * get_max_character_height m +
    5 * ceilSqrt (rmax - rmin).toNat + 2 * 5

/-- The packing outcome of `init_main_atlas_buffer` on store `m`. -/
def packOf (rmin rmax : Int) (m : List (Int × character)) : PackOut :=
  packLoop (atlasW rmin rmax m) (atlasH rmin rmax m)
    (get_max_character_width m + 5) (get_max_character_height m + 5) m 5 5
    (List.replicate (atlasW rmin rmax m * atlasH rmin rmax m * 4) 0)

/-- The character store produced for `edgeRaster` on range 33-37. -/
def edgeMap : List (Int × character) :=
  (init_character_map 33 37 edgeRaster).getD []

/-- Computable check that a list of codepoints is in ascending (non-strict)
order. -/
def sortedAscending : List Int → Bool
  | [] => true
  | [_] => true
  | a :: b :: t => if a ≤ b then sortedAscending (b :: t) else false

/-- A pixel corner lies in the closed box `[0, W] x [0, H]`. -/
def cornerWithin (v : vector2) (W H : Nat) : Prop :=
  0 ≤ v.x ∧ v.x ≤ W ∧ 0 ≤ v.y ∧ v.y ≤ H

instance (v : vector2) (W H : Nat) : Decidable (cornerWithin v W H) := by
  unfold cornerWithin; infer_instance

/-- A rational 2D point lies in the unit square. -/
def inUnit (v : vector2f) : Prop := 0 ≤ v.x ∧ v.x ≤ 1 ∧ 0 ≤ v.y ∧ v.y ≤ 1

instance (v : vector2f) : Decidable (inUnit v) := by
  unfold inUnit; infer_instance

/-! ## Helper lemmas -/

theorem getD_set_self (l : List Nat) (i a : Nat) (h : i < l.length) :
    (l.set i a).getD i 0 = a := by
  simp [List.getD_eq_getElem?_getD, List.getElem?_set_eq_of_lt, h]

theorem getD_set_ne (l : List Nat) (i j a : Nat) (h : i ≠ j) :
    (l.set i a).getD j 0 = l.getD j 0 := by
  simp [List.getD_eq_getElem?_getD, List.getElem?_set_ne h]

theorem convertStep_length (b d : List Nat) (a : Nat) :
    (convertStep b d a).length = d.length := by
  unfold convertStep
  dsimp only
  split <;> simp

theorem convertFold_length (b : List Nat) :
    ∀ (L d : List Nat), (L.foldl (convertStep b) d).length = d.length
  | [], _ => rfl
  | a :: L, d => by
    rw [List.foldl_cons, convertFold_length b L, convertStep_length]

theorem convertStep_getD_lt (b d : List Nat) (a j : Nat) (h : j < a * 4) :
    (convertStep b d a).getD j 0 = d.getD j 0 := by
  unfold convertStep
  dsimp only
  split <;>
    rw [getD_set_ne _ _ _ _ (by omega), getD_set_ne _ _ _ _ (by omega),
      getD_set_ne _ _ _ _ (by omega), getD_set_ne _ _ _ _ (by omega)]

theorem convertStep_getD_self (b d : List Nat) (a : Nat) (h : a * 4 + 3 < d.length) :
    (convertStep b d a).getD (a * 4) 0 = 0 ∧
    (convertStep b d a).getD (a * 4 + 1) 0 = 0 ∧
    (convertStep b d a).getD (a * 4 + 2) 0 = 0 ∧
    (convertStep b d a).getD (a * 4 + 3) 0 = b.getD a 0 := by
  unfold convertStep
  dsimp only
  have l0 : a * 4 < d.length := by omega
  have l1 : a * 4 + 1 < (d.set (a * 4) 0).length := by simpa using (by omega : a * 4 + 1 < d.length)
  have l2 : a * 4 + 2 < ((d.set (a * 4) 0).set (a * 4 + 1) 0).length := by
    simpa using (by omega : a * 4 + 2 < d.length)
  have l3 : a * 4 + 3 < (((d.set (a * 4) 0).set (a * 4 + 1) 0).set (a * 4 + 2) 0).length := by
    simpa using h
  split
  case isTrue hz =>
    refine ⟨?_, ?_, ?_, ?_⟩
    · rw [getD_set_ne _ _ _ _ (by omega), getD_set_ne _ _ _ _ (by omega),
        getD_set_ne _ _ _ _ (by omega), getD_set_self _ _ _ l0]
    · rw [getD_set_ne _ _ _ _ (by omega), getD_set_ne _ _ _ _ (by omega),
        getD_set_self _ _ _ l1]
    · rw [getD_set_ne _ _ _ _ (by omega), getD_set_self _ _ _ l2]
    · rw [getD_set_self _ _ _ l3, hz]
  case isFalse hz =>
    refine ⟨?_, ?_, ?_, ?_⟩
    · rw [getD_set_ne _ _ _ _ (by omega), getD_set_ne _ _ _ _ (by omega),
        getD_set_ne _ _ _ _ (by omega), getD_set_self _ _ _ l0]
    · rw [getD_set_ne _ _ _ _ (by omega), getD_set_ne _ _ _ _ (by omega),
        getD_set_self _ _ _ l1]
    · rw [getD_set_ne _ _ _ _ (by omega), getD_set_self _ _ _ l2]
    · rw [getD_set_self _ _ _ l3]

theorem convertFold_getD (b : List Nat) :
    ∀ (n : Nat) (d : List Nat) (flat : Nat), flat < n → flat * 4 + 3 < d.length →
      ((List.range n).foldl (convertStep b) d).getD (flat * 4) 0 = 0 ∧
      ((List.range n).foldl (convertStep b) d).getD (flat * 4 + 1) 0 = 0 ∧
      ((List.range n).foldl (convertStep b) d).getD (flat * 4 + 2) 0 = 0 ∧
      ((List.range n).foldl (convertStep b) d).getD (flat * 4 + 3) 0 = b.getD flat 0
  | 0, _, _, hf, _ => absurd hf (by omega)
  | n + 1, d, flat, hf, hd => by
    rw [List.range_succ, List.foldl_append, List.foldl_cons, List.foldl_nil]
    rcases Nat.lt_or_ge flat n with hlt | hge
    · have ih := convertFold_getD b n d flat hlt hd
      refine ⟨?_, ?_, ?_, ?_⟩ <;>
        rw [convertStep_getD_lt _ _ _ _ (by omega)]
      · exact ih.1
      · exact ih.2.1
      · exact ih.2.2.1
      · exact ih.2.2.2
    · have hfe : flat = n := by omega
      subst hfe
      exact convertStep_getD_self b _ flat (by rw [convertFold_length]; exact hd)

theorem lookupChar_mem : ∀ (m : List (Int × character)) (i : Int) (ch : character),
    lookupChar m i = some ch → (i, ch) ∈ m
  | [], _, _, h => by simp [lookupChar] at h
  | (c, x) :: rest, i, ch, h => by
    by_cases hc : c = i
    · subst hc
      simp [lookupChar] at h
      subst h
      exact List.mem_cons_self _ _
    · rw [lookupChar, if_neg hc] at h
      exact List.mem_cons_of_mem _ (lookupChar_mem rest i ch h)

theorem initCharGo_isSome (raster : Int → RasterResult) :
    ∀ L : List Int, (initCharGo raster L).isSome = true
  | [] => rfl
  | i :: rest => by
    have ih := initCharGo_isSome raster rest
    unfold initCharGo
    cases hr : raster i with
    | loadError => exact ih
    | renderError => exact ih
    | ok g =>
      dsimp only
      by_cases hskip : (g.bitmap.isNone && !(isspaceChar i)) = true
      · rw [if_pos hskip]; exact ih
      · rw [if_neg hskip]
        by_cases hsp : isspaceChar i
        · rw [if_pos hsp]
          simpa using ih
        · rw [if_neg hsp]
          cases hb : g.bitmap with
          | none => exact absurd (by simp [hb, hsp]) hskip
          | some b =>
            simp only [convert_bitmap_to_four_channel_buffer]
            simpa using ih

theorem initCharGo_keys (raster : Int → RasterResult) :
    ∀ (L : List Int) (m : List (Int × character)), initCharGo raster L = some m →
      ∀ p ∈ m, p.1 ∈ L
  | [], m, h, p, hp => by
    simp only [initCharGo, Option.some_inj] at h
    subst h
    simp at hp
  | i :: rest, m, h, p, hp => by
    rw [initCharGo] at h
    revert h
    cases hr : raster i with
    | loadError =>
      intro h
      exact List.mem_cons_of_mem _ (initCharGo_keys raster rest m h p hp)
    | renderError =>
      intro h
      exact List.mem_cons_of_mem _ (initCharGo_keys raster rest m h p hp)
    | ok g =>
      dsimp only
      by_cases hskip : (g.bitmap.isNone && !(isspaceChar i)) = true
      · rw [if_pos hskip]
        intro h
        exact List.mem_cons_of_mem _ (initCharGo_keys raster rest m h p hp)
      · rw [if_neg hskip]
        by_cases hsp : isspaceChar i
        · rw [if_pos hsp]
          intro h
          obtain ⟨m', hm', he⟩ := Option.map_eq_some'.mp h
          subst he
          rcases List.mem_cons.mp hp with he | hm
          · subst he; exact List.mem_cons_self _ _
          · exact List.mem_cons_of_mem _ (initCharGo_keys raster rest m' hm' p hm)
        · rw [if_neg hsp]
          cases hb : g.bitmap with
          | none => exact absurd (by simp [hb, hsp]) hskip
          | some b =>
            simp only [convert_bitmap_to_four_channel_buffer]
            intro h
            obtain ⟨m', hm', he⟩ := Option.map_eq_some'.mp h
            subst he
            rcases List.mem_cons.mp hp with he | hm
            · subst he; exact List.mem_cons_self _ _
            · exact List.mem_cons_of_mem _ (initCharGo_keys raster rest m' hm' p hm)

theorem initCharGo_lookup_not_mem (raster : Int → RasterResult)
    (L : List Int) (m : List (Int × character)) (h : initCharGo raster L = some m)
    (i : Int) (hi : i ∉ L) : lookupChar m i = none := by
  cases hl : lookupChar m i with
  | none => rfl
  | some ch =>
    exact absurd (initCharGo_keys raster L m h (i, ch) (lookupChar_mem m i ch hl)) hi

theorem rangeList_nodup (rmin rmax : Int) : (rangeList rmin rmax).Nodup := by
  have hinj : Function.Injective (fun k : Nat => rmin + (k : Int)) := by
    intro a b hab
    have h2 : rmin + (a : Int) = rmin + (b : Int) := hab
    omega
  exact List.Nodup.map hinj (List.nodup_range ((rmax + 1 - rmin).toNat))

theorem mem_rangeList (rmin rmax i : Int) :
    i ∈ rangeList rmin rmax ↔ rmin ≤ i ∧ i ≤ rmax := by
  constructor
  · intro hmem
    obtain ⟨k, hk, he⟩ := List.mem_map.mp hmem
    have hk2 := List.mem_range.mp hk
    have he2 : rmin + (k : Int) = i := he
    omega
  · rintro ⟨h1, h2⟩
    exact List.mem_map.mpr ⟨(i - rmin).toNat, List.mem_range.mpr (by omega),
      show rmin + (((i - rmin).toNat : Nat) : Int) = i by omega⟩

theorem initCharGo_lookup (raster : Int → RasterResult) :
    ∀ (L : List Int), L.Nodup → ∀ (m : List (Int × character)),
      initCharGo raster L = some m → ∀ i ∈ L, lookupChar m i = expectedRecord raster i
  | [], _, _, _, i, hi => by simp at hi
  | j :: rest, hnd, m, h, i, hi => by
    have hjr : j ∉ rest := (List.nodup_cons.mp hnd).1
    have hnd' : rest.Nodup := (List.nodup_cons.mp hnd).2
    rw [initCharGo] at h
    revert h
    cases hr : raster j with
    | loadError =>
      intro h
      rcases List.mem_cons.mp hi with he | hm
      · subst he
        rw [initCharGo_lookup_not_mem raster rest m h i hjr, expectedRecord, hr]
      · exact initCharGo_lookup raster rest hnd' m h i hm
    | renderError =>
      intro h
      rcases List.mem_cons.mp hi with he | hm
      · subst he
        rw [initCharGo_lookup_not_mem raster rest m h i hjr, expectedRecord, hr]
      · exact initCharGo_lookup raster rest hnd' m h i hm
    | ok g =>
      dsimp only
      by_cases hskip : (g.bitmap.isNone && !(isspaceChar j)) = true
      · rw [if_pos hskip]
        intro h
        rcases List.mem_cons.mp hi with he | hm
        · subst he
          rw [initCharGo_lookup_not_mem raster rest m h i hjr, expectedRecord, hr]
          dsimp only
          rw [if_pos hskip]
        · exact initCharGo_lookup raster rest hnd' m h i hm
      · rw [if_neg hskip]
        by_cases hsp : isspaceChar j
        · rw [if_pos hsp]
          intro h
          obtain ⟨m', hm', he⟩ := Option.map_eq_some'.mp h
          subst he
          rcases List.mem_cons.mp hi with he | hm
          · subst he
            rw [lookupChar, if_pos rfl, expectedRecord, hr]
            dsimp only
            rw [if_neg hskip, if_pos hsp]
          · have hij : j ≠ i := fun hji => hjr (hji ▸ hm)
            rw [lookupChar, if_neg hij]
            exact initCharGo_lookup raster rest hnd' m' hm' i hm
        · rw [if_neg hsp]
          cases hb : g.bitmap with
          | none => exact absurd (by simp [hb, hsp]) hskip
          | some b =>
            simp only [convert_bitmap_to_four_channel_buffer]
            intro h
            obtain ⟨m', hm', he⟩ := Option.map_eq_some'.mp h
            subst he
            rcases List.mem_cons.mp hi with he | hm
            · subst he
              rw [lookupChar, if_pos rfl, expectedRecord, hr]
              dsimp only
              rw [if_neg hskip, if_neg hsp, hb]
              simp only [convert_bitmap_to_four_channel_buffer, Option.map_some']
            · have hij : j ≠ i := fun hji => hjr (hji ▸ hm)
              rw [lookupChar, if_neg hij]
              exact initCharGo_lookup raster rest hnd' m' hm' i hm

theorem initCharGo_geometry_zero (raster : Int → RasterResult) :
    ∀ (L : List Int) (m : List (Int × character)), initCharGo raster L = some m →
      ∀ p ∈ m,
        p.2.top_left = (⟨0, 0⟩ : vector2) ∧ p.2.top_right = (⟨0, 0⟩ : vector2) ∧
        p.2.bottom_left = (⟨0, 0⟩ : vector2) ∧ p.2.bottom_right = (⟨0, 0⟩ : vector2) ∧
        p.2.tex_coords_top_left = (⟨0, 0⟩ : vector2f) ∧
        p.2.tex_coords_top_right = (⟨0, 0⟩ : vector2f) ∧
        p.2.tex_coords_bottom_left = (⟨0, 0⟩ : vector2f) ∧
        p.2.tex_coords_bottom_right = (⟨0, 0⟩ : vector2f)
  | [], m, h, p, hp => by
    simp only [initCharGo, Option.some_inj] at h
    subst h
    simp at hp
  | i :: rest, m, h, p, hp => by
    rw [initCharGo] at h
    revert h
    cases hr : raster i with
    | loadError =>
      intro h
      exact initCharGo_geometry_zero raster rest m h p hp
    | renderError =>
      intro h
      exact initCharGo_geometry_zero raster rest m h p hp
    | ok g =>
      dsimp only
      by_cases hskip : (g.bitmap.isNone && !(isspaceChar i)) = true
      · rw [if_pos hskip]
        intro h
        exact initCharGo_geometry_zero raster rest m h p hp
      · rw [if_neg hskip]
        by_cases hsp : isspaceChar i
        · rw [if_pos hsp]
          intro h
          obtain ⟨m', hm', he⟩ := Option.map_eq_some'.mp h
          subst he
          rcases List.mem_cons.mp hp with he | hm
          · subst he
            exact ⟨rfl, rfl, rfl, rfl, rfl, rfl, rfl, rfl⟩
          · exact initCharGo_geometry_zero raster rest m' hm' p hm
        · rw [if_neg hsp]
          cases hb : g.bitmap with
          | none => exact absurd (by simp [hb, hsp]) hskip
          | some b =>
            simp only [convert_bitmap_to_four_channel_buffer]
            intro h
            obtain ⟨m', hm', he⟩ := Option.map_eq_some'.mp h
            subst he
            rcases List.mem_cons.mp hp with he | hm
            · subst he
              exact ⟨rfl, rfl, rfl, rfl, rfl, rfl, rfl, rfl⟩
            · exact initCharGo_geometry_zero raster rest m' hm' p hm

theorem blit_success_iff (dst_x dst_y : Int) (sw sh chn dw dh dchn ss ds : Nat)
    (src dst : List Nat) :
    (blit_texture dst_x dst_y sw sh chn dw dh dchn src dst ss ds).1 = BlitStatus.SUCCESS ↔
      0 ≤ dst_x ∧ 0 ≤ dst_y ∧ dst_x + (sw : Int) ≤ (dw : Int) ∧ dst_y + (sh : Int) ≤ (dh : Int) := by
  unfold blit_texture
  by_cases h : dst_x < 0 ∨ dst_y < 0 ∨ dst_x + (sw : Int) > (dw : Int) ∨ dst_y + (sh : Int) > (dh : Int)
  · rw [if_pos h]
    constructor
    · intro hc
      exact absurd hc (by simp)
    · rintro ⟨h1, h2, h3, h4⟩
      exfalso
      rcases h with h | h | h | h <;> omega
  · rw [if_neg h]
    push_neg at h
    exact iff_of_true rfl h

theorem blitFor_success_iff (W H : Nat) (ch : character) (x1 y1 : Nat) (buf : List Nat) :
    (blitFor W H ch x1 y1 buf).1 = BlitStatus.SUCCESS ↔
      x1 + ch.width_ ≤ W ∧ y1 + ch.height_ ≤ H := by
  rw [blitFor, blit_success_iff]
  constructor
  · rintro ⟨_, _, h3, h4⟩
    constructor <;> omega
  · rintro ⟨h1, h2⟩
    refine ⟨by omega, by omega, by omega, by omega⟩

theorem packLoop_cons_space (W H ix iy : Nat) (c : Int) (ch : character)
    (rest : List (Int × character)) (x y : Nat) (buf : List Nat)
    (hsp : isspaceChar c = true) :
    packLoop W H ix iy ((c, ch) :: rest) x y buf =
      { ok := (packLoop W H ix iy rest x y buf).ok,
        entries := (c, ch) :: (packLoop W H ix iy rest x y buf).entries,
        buffer := (packLoop W H ix iy rest x y buf).buffer,
        placed := (packLoop W H ix iy rest x y buf).placed } := by
  rw [packLoop, if_pos hsp]

theorem packLoop_cons_succ (W H ix iy : Nat) (c : Int) (ch : character)
    (rest : List (Int × character)) (x y : Nat) (buf : List Nat)
    (hsp : isspaceChar c = false)
    (hb : (blitFor W H ch (wrapX W ch.width_ x) (wrapY W ch.width_ x y iy) buf).1 =
      BlitStatus.SUCCESS) :
    packLoop W H ix iy ((c, ch) :: rest) x y buf =
      { ok := (packLoop W H ix iy rest (wrapX W ch.width_ x + ix) (wrapY W ch.width_ x y iy)
          (blitFor W H ch (wrapX W ch.width_ x) (wrapY W ch.width_ x y iy) buf).2).ok,
        entries := (c, place ch (wrapX W ch.width_ x) (wrapY W ch.width_ x y iy) W H) ::
          (packLoop W H ix iy rest (wrapX W ch.width_ x + ix) (wrapY W ch.width_ x y iy)
            (blitFor W H ch (wrapX W ch.width_ x) (wrapY W ch.width_ x y iy) buf).2).entries,
        buffer := (packLoop W H ix iy rest (wrapX W ch.width_ x + ix) (wrapY W ch.width_ x y iy)
          (blitFor W H ch (wrapX W ch.width_ x) (wrapY W ch.width_ x y iy) buf).2).buffer,
        placed := c :: (packLoop W H ix iy rest (wrapX W ch.width_ x + ix) (wrapY W ch.width_ x y iy)
          (blitFor W H ch (wrapX W ch.width_ x) (wrapY W ch.width_ x y iy) buf).2).placed } := by
  rw [packLoop, if_neg (by simp [hsp]), if_pos hb]

theorem packLoop_cons_fail (W H ix iy : Nat) (c : Int) (ch : character)
    (rest : List (Int × character)) (x y : Nat) (buf : List Nat)
    (hsp : isspaceChar c = false)
    (hb : (blitFor W H ch (wrapX W ch.width_ x) (wrapY W ch.width_ x y iy) buf).1 ≠
      BlitStatus.SUCCESS) :
    packLoop W H ix iy ((c, ch) :: rest) x y buf =
      { ok := false, entries := (c, ch) :: rest, buffer := buf, placed := [] } := by
  rw [packLoop, if_neg (by simp [hsp]), if_neg hb]

theorem packLoop_ok_bounds (W H ix iy : Nat) :
    ∀ (l : List (Int × character)) (x y : Nat) (buf : List Nat),
      (packLoop W H ix iy l x y buf).ok = true →
      ∀ p ∈ (packLoop W H ix iy l x y buf).entries, isspaceChar p.1 = false →
        ∃ x1 y1, x1 + p.2.width_ ≤ W ∧ y1 + p.2.height_ ≤ H ∧
          p.2.top_left = ⟨x1, y1⟩ ∧
          p.2.top_right = ⟨x1 + p.2.width_, y1⟩ ∧
          p.2.bottom_left = ⟨x1, y1 + p.2.height_⟩ ∧
          p.2.bottom_right = ⟨x1 + p.2.width_, y1 + p.2.height_⟩ ∧
          p.2.tex_coords_top_left = vector2.get_normalized ⟨x1, y1⟩ W H ∧
          p.2.tex_coords_top_right = vector2.get_normalized ⟨x1 + p.2.width_, y1⟩ W H ∧
          p.2.tex_coords_bottom_left = vector2.get_normalized ⟨x1, y1 + p.2.height_⟩ W H ∧
          p.2.tex_coords_bottom_right =
            vector2.get_normalized ⟨x1 + p.2.width_, y1 + p.2.height_⟩ W H
  | [], x, y, buf, hok, p, hp, hns => by
    rw [packLoop] at hp
    simp at hp
  | (c, ch) :: rest, x, y, buf, hok, p, hp, hns => by
    cases hspc : isspaceChar c with
    | true =>
      rw [packLoop_cons_space W H ix iy c ch rest x y buf hspc] at hok hp
      dsimp only at hok hp
      rcases List.mem_cons.mp hp with he | hm
      · subst he
        dsimp only at hns
        rw [hspc] at hns
        exact Bool.noConfusion hns
      · exact packLoop_ok_bounds W H ix iy rest x y buf hok p hm hns
    | false =>
      by_cases hb : (blitFor W H ch (wrapX W ch.width_ x) (wrapY W ch.width_ x y iy) buf).1 =
          BlitStatus.SUCCESS
      · rw [packLoop_cons_succ W H ix iy c ch rest x y buf hspc hb] at hok hp
        dsimp only at hok hp
        rcases List.mem_cons.mp hp with he | hm
        · subst he
          obtain ⟨hbw, hbh⟩ := (blitFor_success_iff W H ch _ _ buf).mp hb
          exact ⟨wrapX W ch.width_ x, wrapY W ch.width_ x y iy, hbw, hbh,
            rfl, rfl, rfl, rfl, rfl, rfl, rfl, rfl⟩
        · exact packLoop_ok_bounds W H ix iy rest _ _ _ hok p hm hns
      · rw [packLoop_cons_fail W H ix iy c ch rest x y buf hspc hb] at hok
        exact Bool.noConfusion hok

theorem packLoop_ok_iff_placed (W H ix iy : Nat) :
    ∀ (l : List (Int × character)) (x y : Nat) (buf : List Nat),
      ((packLoop W H ix iy l x y buf).ok = true ↔
        (packLoop W H ix iy l x y buf).placed = nonspaceKeys l)
  | [], x, y, buf => by
    rw [packLoop]
    simp [nonspaceKeys]
  | (c, ch) :: rest, x, y, buf => by
    cases hspc : isspaceChar c with
    | true =>
      rw [packLoop_cons_space W H ix iy c ch rest x y buf hspc]
      dsimp only
      rw [packLoop_ok_iff_placed W H ix iy rest x y buf]
      simp [nonspaceKeys, List.filter_cons, hspc]
    | false =>
      by_cases hb : (blitFor W H ch (wrapX W ch.width_ x) (wrapY W ch.width_ x y iy) buf).1 =
          BlitStatus.SUCCESS
      · rw [packLoop_cons_succ W H ix iy c ch rest x y buf hspc hb]
        dsimp only
        rw [packLoop_ok_iff_placed W H ix iy rest _ _ _]
        simp [nonspaceKeys, List.filter_cons, hspc]
      · rw [packLoop_cons_fail W H ix iy c ch rest x y buf hspc hb]
        dsimp only
        simp [nonspaceKeys, List.filter_cons, hspc]

theorem packLoop_fail_placed_prefix (W H ix iy : Nat) :
    ∀ (l : List (Int × character)) (x y : Nat) (buf : List Nat),
      (packLoop W H ix iy l x y buf).ok = false →
      ∃ t, t ≠ [] ∧ nonspaceKeys l = (packLoop W H ix iy l x y buf).placed ++ t
  | [], x, y, buf, hok => by
    rw [packLoop] at hok
    exact Bool.noConfusion hok
  | (c, ch) :: rest, x, y, buf, hok => by
    cases hspc : isspaceChar c with
    | true =>
      rw [packLoop_cons_space W H ix iy c ch rest x y buf hspc] at hok ⊢
      dsimp only at hok ⊢
      obtain ⟨t, ht, he⟩ := packLoop_fail_placed_prefix W H ix iy rest x y buf hok
      refine ⟨t, ht, ?_⟩
      rw [← he]
      simp [nonspaceKeys, List.filter_cons, hspc]
    | false =>
      by_cases hb : (blitFor W H ch (wrapX W ch.width_ x) (wrapY W ch.width_ x y iy) buf).1 =
          BlitStatus.SUCCESS
      · rw [packLoop_cons_succ W H ix iy c ch rest x y buf hspc hb] at hok ⊢
        dsimp only at hok ⊢
        obtain ⟨t, ht, he⟩ := packLoop_fail_placed_prefix W H ix iy rest _ _ _ hok
        refine ⟨t, ht, ?_⟩
        have : nonspaceKeys ((c, ch) :: rest) = c :: nonspaceKeys rest := by
          simp [nonspaceKeys, List.filter_cons, hspc]
        rw [this, he]
        rfl
      · rw [packLoop_cons_fail W H ix iy c ch rest x y buf hspc hb]
        dsimp only
        refine ⟨nonspaceKeys ((c, ch) :: rest), ?_, by simp⟩
        simp [nonspaceKeys, List.filter_cons, hspc]

theorem packLoop_space_entries (W H ix iy : Nat) :
    ∀ (l : List (Int × character)) (x y : Nat) (buf : List Nat),
      ∀ p ∈ (packLoop W H ix iy l x y buf).entries, isspaceChar p.1 = true → p ∈ l
  | [], x, y, buf, p, hp, hsp => by
    rw [packLoop] at hp
    simp at hp
  | (c, ch) :: rest, x, y, buf, p, hp, hsp => by
    cases hspc : isspaceChar c with
    | true =>
      rw [packLoop_cons_space W H ix iy c ch rest x y buf hspc] at hp
      dsimp only at hp
      rcases List.mem_cons.mp hp with he | hm
      · subst he; exact List.mem_cons_self _ _
      · exact List.mem_cons_of_mem _ (packLoop_space_entries W H ix iy rest x y buf p hm hsp)
    | false =>
      by_cases hb : (blitFor W H ch (wrapX W ch.width_ x) (wrapY W ch.width_ x y iy) buf).1 =
          BlitStatus.SUCCESS
      · rw [packLoop_cons_succ W H ix iy c ch rest x y buf hspc hb] at hp
        dsimp only at hp
        rcases List.mem_cons.mp hp with he | hm
        · subst he
          dsimp only at hsp
          rw [hspc] at hsp
          exact Bool.noConfusion hsp
        · exact List.mem_cons_of_mem _ (packLoop_space_entries W H ix iy rest _ _ _ p hm hsp)
      · rw [packLoop_cons_fail W H ix iy c ch rest x y buf hspc hb] at hp
        exact hp

theorem packLoop_filter_nonspace (W H ix iy : Nat) :
    ∀ (l : List (Int × character)) (x y : Nat) (buf : List Nat),
      packLoop W H ix iy (l.filter (fun p => !(isspaceChar p.1))) x y buf =
        { ok := (packLoop W H ix iy l x y buf).ok,
          entries := (packLoop W H ix iy l x y buf).entries.filter (fun p => !(isspaceChar p.1)),
          buffer := (packLoop W H ix iy l x y buf).buffer,
          placed := (packLoop W H ix iy l x y buf).placed }
  | [], x, y, buf => by
    rw [List.filter_nil, packLoop]
    rfl
  | (c, ch) :: rest, x, y, buf => by
    cases hspc : isspaceChar c with
    | true =>
      rw [List.filter_cons_of_neg (by simp [hspc]),
        packLoop_cons_space W H ix iy c ch rest x y buf hspc]
      dsimp only
      rw [packLoop_filter_nonspace W H ix iy rest x y buf,
        List.filter_cons_of_neg (by simp [hspc])]
    | false =>
      by_cases hb : (blitFor W H ch (wrapX W ch.width_ x) (wrapY W ch.width_ x y iy) buf).1 =
          BlitStatus.SUCCESS
      · rw [List.filter_cons_of_pos (by simp [hspc]),
          packLoop_cons_succ W H ix iy c ch rest x y buf hspc hb,
          packLoop_cons_succ W H ix iy c ch (rest.filter (fun p => !(isspaceChar p.1))) x y buf hspc hb]
        dsimp only
        rw [packLoop_filter_nonspace W H ix iy rest _ _ _,
          List.filter_cons_of_pos (by simp [hspc, place])]
      · rw [List.filter_cons_of_pos (by simp [hspc]),
          packLoop_cons_fail W H ix iy c ch rest x y buf hspc hb,
          packLoop_cons_fail W H ix iy c ch (rest.filter (fun p => !(isspaceChar p.1))) x y buf hspc hb]
        dsimp only
        rw [List.filter_cons_of_pos (by simp [hspc])]

theorem packLoop_spec_cursor (W cw chh H : Nat) :
    ∀ (l : List (Int × character)) (x y : Nat) (buf : List Nat),
      (packLoop W H (cw + 5) (chh + 5) l x y buf).ok = true →
      ((packLoop W H (cw + 5) (chh + 5) l x y buf).entries.filter
          (fun p => !(isspaceChar p.1))).map (fun p => (p.2.top_left.x, p.2.top_left.y)) =
        specCursorPlacements W cw chh
          ((l.filter (fun p => !(isspaceChar p.1))).map (fun p => p.2.width_)) x y
  | [], x, y, buf, hok => by
    rw [packLoop]
    rfl
  | (c, ch) :: rest, x, y, buf, hok => by
    cases hspc : isspaceChar c with
    | true =>
      rw [packLoop_cons_space W H (cw + 5) (chh + 5) c ch rest x y buf hspc] at hok ⊢
      dsimp only at hok ⊢
      rw [List.filter_cons_of_neg (by simp [hspc]), List.filter_cons_of_neg (by simp [hspc])]
      exact packLoop_spec_cursor W cw chh H rest x y buf hok
    | false =>
      by_cases hb : (blitFor W H ch (wrapX W ch.width_ x) (wrapY W ch.width_ x y (chh + 5)) buf).1 =
          BlitStatus.SUCCESS
      · rw [packLoop_cons_succ W H (cw + 5) (chh + 5) c ch rest x y buf hspc hb] at hok ⊢
        dsimp only at hok ⊢
        rw [List.filter_cons_of_pos (by simp [hspc]), List.filter_cons_of_pos (by simp [hspc]),
          List.map_cons, List.map_cons]
        dsimp only [specCursorPlacements]
        refine congrArg₂ List.cons ?_ ?_
        · dsimp only [place, wrapX, wrapY]
        · rw [packLoop_spec_cursor W cw chh H rest _ _ _ hok]
          dsimp only [wrapX, wrapY]
      · rw [packLoop_cons_fail W H (cw + 5) (chh + 5) c ch rest x y buf hspc hb] at hok
        exact Bool.noConfusion hok

theorem init_main_atlas_buffer_eq (rmin rmax : Int) (m : List (Int × character)) :
    init_main_atlas_buffer rmin rmax m =
      (packOf rmin rmax m,
       { atlas_buffer := (packOf rmin rmax m).buffer,
         width := atlasW rmin rmax m, height := atlasH rmin rmax m }) := rfl

theorem init_character_map_isSome (rmin rmax : Int) (raster : Int → RasterResult) :
    ∃ m, init_character_map rmin rmax raster = some m := by
  have h := initCharGo_isSome raster (rangeList rmin rmax)
  cases he : initCharGo raster (rangeList rmin rmax) with
  | none => rw [he] at h; exact Bool.noConfusion h
  | some m => exact ⟨m, he⟩

theorem Font_build_eq (rmin rmax : Int) (raster : Int → RasterResult)
    (sigma : List (Int × character) → List (Int × character))
    (m : List (Int × character))
    (hm : init_character_map rmin rmax raster = some m) :
    Font.build rmin rmax raster sigma =
      { character_map_ := (packOf rmin rmax (sigma m)).entries,
        main_atlas_ := { atlas_buffer := (packOf rmin rmax (sigma m)).buffer,
                         width := atlasW rmin rmax (sigma m),
                         height := atlasH rmin rmax (sigma m) },
        error_ := !(packOf rmin rmax (sigma m)).ok,
        char_range_min := rmin, char_range_max := rmax } := by
  unfold Font.build
  rw [hm]
  rfl

theorem buildPack_eq (rmin rmax : Int) (raster : Int → RasterResult)
    (sigma : List (Int × character) → List (Int × character))
    (m : List (Int × character))
    (hm : init_character_map rmin rmax raster = some m) :
    buildPack rmin rmax raster sigma = packOf rmin rmax (sigma m) := by
  unfold buildPack
  rw [hm]
  rfl

theorem foldl_max_perm (f : (Int × character) → Nat) {l1 l2 : List (Int × character)}
    (h : l1.Perm l2) :
    ∀ a : Nat, l1.foldl (fun acc p => max (f p) acc) a =
      l2.foldl (fun acc p => max (f p) acc) a := by
  induction h with
  | nil => intro a; rfl
  | cons x h ih =>
    intro a
    simp only [List.foldl_cons]
    exact ih _
  | swap x y l =>
    intro a
    simp only [List.foldl_cons]
    rw [Nat.max_left_comm]
  | trans h1 h2 ih1 ih2 =>
    intro a
    rw [ih1, ih2]

theorem get_max_character_width_perm {l1 l2 : List (Int × character)} (h : l1.Perm l2) :
    get_max_character_width l1 = get_max_character_width l2 :=
  foldl_max_perm (fun p => p.2.width_) h 0

theorem get_max_character_height_perm {l1 l2 : List (Int × character)} (h : l1.Perm l2) :
    get_max_character_height l1 = get_max_character_height l2 :=
  foldl_max_perm (fun p => p.2.height_) h 0

theorem lookupChar_append_self :
    ∀ (m : List (Int × character)) (c : Int) (ch : character),
      lookupChar m c = none → lookupChar (m ++ [(c, ch)]) c = some ch
  | [], c, ch, _ => by
    simp [lookupChar]
  | (a, b) :: rest, c, ch, h => by
    by_cases hac : a = c
    · rw [lookupChar, if_pos hac] at h
      exact Option.noConfusion h
    · rw [lookupChar, if_neg hac] at h
      rw [List.cons_append, lookupChar, if_neg hac]
      exact lookupChar_append_self rest c ch h

theorem packLoop_placed_prefix (W H ix iy : Nat) (l : List (Int × character))
    (x y : Nat) (buf : List Nat) :
    ∃ t, nonspaceKeys l = (packLoop W H ix iy l x y buf).placed ++ t := by
  cases hok : (packLoop W H ix iy l x y buf).ok with
  | false =>
    obtain ⟨t, _, he⟩ := packLoop_fail_placed_prefix W H ix iy l x y buf hok
    exact ⟨t, he⟩
  | true =>
    refine ⟨[], ?_⟩
    rw [(packLoop_ok_iff_placed W H ix iy l x y buf).mp hok, List.append_nil]

theorem mem_nonspaceKeys_isspace (l : List (Int × character)) (c : Int)
    (h : c ∈ nonspaceKeys l) : isspaceChar c = false := by
  unfold nonspaceKeys at h
  obtain ⟨p, hp, he⟩ := List.mem_map.mp h
  have hf := List.of_mem_filter hp
  rw [he] at hf
  simpa using hf

theorem rat_div_unit (a W : Nat) (hW : 0 < W) (ha : a ≤ W) :
    0 ≤ (a : Rat) / (W : Rat) ∧ (a : Rat) / (W : Rat) ≤ 1 := by
  constructor
  · exact div_nonneg (by positivity) (by positivity)
  · rw [div_le_one (by exact_mod_cast hW)]
    exact_mod_cast ha

theorem inUnit_get_normalized (a b W H : Nat) (hW : 0 < W) (hH : 0 < H)
    (ha : a ≤ W) (hb : b ≤ H) :
    inUnit (vector2.get_normalized ⟨a, b⟩ W H) := by
  obtain ⟨h1, h2⟩ := rat_div_unit a W hW ha
  obtain ⟨h3, h4⟩ := rat_div_unit b H hH hb
  exact ⟨h1, h2, h3, h4⟩

/-! ## Claim theorems -/

/-- Claim C5: for every non-whitespace glyph with a non-empty grayscale
bitmap, the 4-channel expansion performed by
`convert_bitmap_to_four_channel_buffer` is bit-exact: for every pixel of the
bitmap, the destination bytes are `r = 0`, `g = 0`, `b = 0`, and the alpha
byte equals the grayscale source byte verbatim, with no blending. -/
theorem C5_four_channel_expansion (b dst : List Nat) (bitmap_width bitmap_height : Nat)
    (hlen : dst.length = bitmap_width * bitmap_height * 4)
    (flat : Nat) (hflat : flat < bitmap_height * bitmap_width) :
    ∃ out, convert_bitmap_to_four_channel_buffer (some b) bitmap_width bitmap_height dst =
        some out ∧
      out.getD (flat * 4) 0 = 0 ∧ out.getD (flat * 4 + 1) 0 = 0 ∧
      out.getD (flat * 4 + 2) 0 = 0 ∧ out.getD (flat * 4 + 3) 0 = b.getD flat 0 := by
  refine ⟨_, rfl, ?_⟩
  have hcomm : bitmap_width * bitmap_height = bitmap_height * bitmap_width :=
    Nat.mul_comm _ _
  have hd : flat * 4 + 3 < dst.length := by
    rw [hlen]
    omega
  exact convertFold_getD b (bitmap_height * bitmap_width) dst flat hflat hd

/-- Witness for C5 at a concrete 2 by 1 bitmap `[0, 7]` over a destination
prefilled with nonzero bytes. -/
theorem C5_four_channel_expansion_witness :
    ∃ out, convert_bitmap_to_four_channel_buffer (some [0, 7]) 2 1 (List.replicate 8 9) =
        some out ∧
      out.getD (1 * 4) 0 = 0 ∧ out.getD (1 * 4 + 1) 0 = 0 ∧
      out.getD (1 * 4 + 2) 0 = 0 ∧ out.getD (1 * 4 + 3) 0 = [0, 7].getD 1 0 :=
  C5_four_channel_expansion [0, 7] (List.replicate 8 9) 2 1 (by decide) 1 (by decide)

/-- Claim C9: `free_character_buffers` is idempotent and clears only the
per-character raw bitmap buffers, leaving every record's metrics, placement
and UV fields unchanged; `free_atlas_buffer` is idempotent, clears only the
atlas buffer, and leaves the atlas width and height and all character records
unchanged; the two releases are independent of each other. -/
theorem C9_release_functions (f : Font) :
    free_character_buffers (free_character_buffers f) = free_character_buffers f ∧
    free_atlas_buffer (free_atlas_buffer f) = free_atlas_buffer f ∧
    (free_character_buffers f).character_map_.map (fun p => p.2.raw_bitmap_buffer) =
      f.character_map_.map (fun _ => ([] : List Nat)) ∧
    (free_character_buffers f).character_map_.map
        (fun p => (p.1, p.2.width_, p.2.height_, p.2.x_bearing_, p.2.y_bearing_,
          p.2.advance_x_, p.2.advance_y_, p.2.top_left, p.2.top_right, p.2.bottom_left,
          p.2.bottom_right, p.2.tex_coords_top_left, p.2.tex_coords_top_right,
          p.2.tex_coords_bottom_left, p.2.tex_coords_bottom_right)) =
      f.character_map_.map
        (fun p => (p.1, p.2.width_, p.2.height_, p.2.x_bearing_, p.2.y_bearing_,
          p.2.advance_x_, p.2.advance_y_, p.2.top_left, p.2.top_right, p.2.bottom_left,
          p.2.bottom_right, p.2.tex_coords_top_left, p.2.tex_coords_top_right,
          p.2.tex_coords_bottom_left, p.2.tex_coords_bottom_right)) ∧
    (free_character_buffers f).main_atlas_ = f.main_atlas_ ∧
    (free_character_buffers f).error_ = f.error_ ∧
    (free_atlas_buffer f).main_atlas_.atlas_buffer = [] ∧
    (free_atlas_buffer f).main_atlas_.width = f.main_atlas_.width ∧
    (free_atlas_buffer f).main_atlas_.height = f.main_atlas_.height ∧
    (free_atlas_buffer f).character_map_ = f.character_map_ ∧
    (free_atlas_buffer f).error_ = f.error_ ∧
    free_atlas_buffer (free_character_buffers f) = free_character_buffers (free_atlas_buffer f) := by
  refine ⟨?_, rfl, ?_, ?_, rfl, rfl, rfl, rfl, rfl, rfl, rfl, rfl⟩
  · unfold free_character_buffers
    simp only [List.map_map]
    rfl
  · unfold free_character_buffers
    simp only [List.map_map]
    rfl
  · unfold free_character_buffers
    simp only [List.map_map]
    rfl

/-- Claim C10: for every character argument with no entry in the character
store, `get_character` inserts a new default-constructed, zero-filled record
into the store and returns it; the lookup never reports a missing key and thus
mutates the store on a miss. -/
theorem C10_get_character_inserts_default (f : Font) (c : Int)
    (h : lookupChar f.character_map_ c = none) :
    (get_character f c).1 = zeroCharacter ∧
    (get_character f c).1.width_ = 0 ∧
    (get_character f c).1.height_ = 0 ∧
    (get_character f c).1.advance_x_ = 0 ∧
    (get_character f c).1.top_left = (⟨0, 0⟩ : vector2) ∧
    (get_character f c).1.tex_coords_top_left = (⟨0, 0⟩ : vector2f) ∧
    (get_character f c).1.raw_bitmap_buffer = [] ∧
    (get_character f c).2.character_map_ = f.character_map_ ++ [(c, zeroCharacter)] ∧
    lookupChar (get_character f c).2.character_map_ c = some zeroCharacter := by
  unfold get_character
  rw [h]
  refine ⟨rfl, rfl, rfl, rfl, rfl, rfl, rfl, rfl, ?_⟩
  exact lookupChar_append_self f.character_map_ c zeroCharacter h

/-- Witness for C10: looking up codepoint 200, outside the processed range of
a concrete successful build, inserts the zero record. -/
theorem C10_get_character_witness :
    lookupChar (get_character (Font.build 33 36 scenRaster id) 200).2.character_map_ 200 =
      some zeroCharacter :=
  (C10_get_character_inserts_default (Font.build 33 36 scenRaster id) 200
    (by decide)).2.2.2.2.2.2.2.2

theorem ceilSqrtFrom_spec (n : Nat) :
    ∀ (fuel k : Nat), (∀ j < k, ¬ n ≤ j * j) → n ≤ (k + fuel) * (k + fuel) →
      n ≤ ceilSqrtFrom n k fuel * ceilSqrtFrom n k fuel ∧
        ∀ j < ceilSqrtFrom n k fuel, ¬ n ≤ j * j
  | 0, k, hinv, hfuel => by
    rw [ceilSqrtFrom]
    exact ⟨by simpa using hfuel, hinv⟩
  | fuel + 1, k, hinv, hfuel => by
    rw [ceilSqrtFrom]
    by_cases hk : n ≤ k * k
    · rw [if_pos hk]
      exact ⟨hk, hinv⟩
    · rw [if_neg hk]
      refine ceilSqrtFrom_spec n fuel (k + 1) ?_ ?_
      · intro j hj
        rcases Nat.lt_or_ge j k with hjk | hjk
        · exact hinv j hjk
        · have : j = k := by omega
          subst this
          exact hk
      · have : k + 1 + fuel = k + (fuel + 1) := by omega
        rw [this]
        exact hfuel

theorem ceilSqrt_spec (n : Nat) :
    n ≤ ceilSqrt n * ceilSqrt n ∧ ∀ j < ceilSqrt n, ¬ n ≤ j * j := by
  unfold ceilSqrt
  refine ceilSqrtFrom_spec n n 0 (by intro j hj; omega) ?_
  rcases Nat.eq_zero_or_pos n with h0 | hp
  · subst h0; simp
  · have : n * 1 ≤ n * n := Nat.mul_le_mul_left n hp
    simpa using this

theorem ceilSqrt_eq_sqrt (n : Nat) :
    ceilSqrt n = if Nat.sqrt n * Nat.sqrt n = n then Nat.sqrt n else Nat.sqrt n + 1 := by
  obtain ⟨h1, h2⟩ := ceilSqrt_spec n
  have hs1 : Nat.sqrt n * Nat.sqrt n ≤ n := by
    have := Nat.sqrt_le' n
    simpa [pow_two] using this
  have hs2 : n < (Nat.sqrt n + 1) * (Nat.sqrt n + 1) := by
    have := Nat.lt_succ_sqrt' n
    simpa [pow_two, Nat.succ_eq_add_one] using this
  split
  case isTrue h =>
    apply Nat.le_antisymm
    · by_contra hlt
      push_neg at hlt
      exact h2 (Nat.sqrt n) hlt (le_of_eq h.symm)
    · by_contra hlt
      push_neg at hlt
      have hle : ceilSqrt n + 1 ≤ Nat.sqrt n := hlt
      have : (ceilSqrt n + 1) * (ceilSqrt n + 1) ≤ Nat.sqrt n * Nat.sqrt n :=
        Nat.mul_le_mul hle hle
      have hcn : n ≤ ceilSqrt n * ceilSqrt n := h1
      have hexp : (ceilSqrt n + 1) * (ceilSqrt n + 1) =
          ceilSqrt n * ceilSqrt n + 2 * ceilSqrt n + 1 := by ring
      omega
  case isFalse h =>
    apply Nat.le_antisymm
    · by_contra hlt
      push_neg at hlt
      exact h2 (Nat.sqrt n + 1) hlt (le_of_lt hs2)
    · by_contra hlt
      push_neg at hlt
      have hle : ceilSqrt n ≤ Nat.sqrt n := by omega
      have : ceilSqrt n * ceilSqrt n ≤ Nat.sqrt n * Nat.sqrt n :=
        Nat.mul_le_mul hle hle
      omega

/-- Claim C3: for every build, the atlas dimensions equal
`cells_per_row * cell_w + spacing * cells_per_row + 2 * margin` (width) and
`cells_per_row * cell_h + spacing * cells_per_row + 2 * margin` (height), with
`cells_per_row = ceil(sqrt(max - min))`, `cell_w`/`cell_h` the maximal glyph
width/height over all records, `spacing = 5` and `margin = 5`; in particular a
range of four codepoints whose glyphs are all 2 by 2 pixels yields a 24 by 24
atlas. -/
theorem C3_atlas_dimensions_formula :
    (∀ (rmin rmax : Int) (raster : Int → RasterResult)
        (sigma : List (Int × character) → List (Int × character))
        (m : List (Int × character)),
      init_character_map rmin rmax raster = some m → (sigma m).Perm m →
      (Font.build rmin rmax raster sigma).main_atlas_.width =
        ceilSqrt (rmax - rmin).toNat * get_max_character_width m +
          5 * ceilSqrt (rmax - rmin).toNat + 2 * 5 ∧
      (Font.build rmin rmax raster sigma).main_atlas_.height =
        ceilSqrt (rmax - rmin).toNat * get_max_character_height m +
          5 * ceilSqrt (rmax - rmin).toNat + 2 * 5) ∧
    (Font.build 33 36 scenRaster id).main_atlas_.width = 24 ∧
    (Font.build 33 36 scenRaster id).main_atlas_.height = 24 := by
  refine ⟨?_, by decide, by decide⟩
  intro rmin rmax raster sigma m hm hperm
  rw [Font_build_eq rmin rmax raster sigma m hm]
  dsimp only
  unfold atlasW atlasH
  rw [get_max_character_width_perm hperm, get_max_character_height_perm hperm]
  exact ⟨rfl, rfl⟩

/-- Witness for C3: the general dimension formula applied to the concrete
four-codepoint build. -/
theorem C3_atlas_dimensions_witness :
    (Font.build 33 36 scenRaster id).main_atlas_.width =
      ceilSqrt ((36 : Int) - 33).toNat * get_max_character_width scenMap +
        5 * ceilSqrt ((36 : Int) - 33).toNat + 2 * 5 :=
  (C3_atlas_dimensions_formula.1 33 36 scenRaster id scenMap (by decide)
    (List.Perm.refl _)).1

/-- Claim C7: a codepoint whose glyph load or render fails, or whose rendered
bitmap is empty although the codepoint is not whitespace, has no entry in the
character store after the build (no default-empty entry is created), while the
remaining codepoints of the range are still processed; such failures never
make `init_character_map` fail. -/
theorem C7_skipped_codepoints_absent (rmin rmax : Int) (raster : Int → RasterResult) :
    ∃ m, init_character_map rmin rmax raster = some m ∧
      (∀ i, rmin ≤ i → i ≤ rmax →
        (raster i = RasterResult.loadError ∨ raster i = RasterResult.renderError ∨
          (∃ g, raster i = RasterResult.ok g ∧ g.bitmap = none ∧ isspaceChar i = false)) →
        lookupChar m i = none) ∧
      (∀ j, rmin ≤ j → j ≤ rmax →
        (∃ g, raster j = RasterResult.ok g ∧ (g.bitmap ≠ none ∨ isspaceChar j = true)) →
        ∃ ch, lookupChar m j = some ch) := by
  obtain ⟨m, hm⟩ := init_character_map_isSome rmin rmax raster
  refine ⟨m, hm, ?_, ?_⟩
  · intro i h1 h2 hcond
    have hl := initCharGo_lookup raster (rangeList rmin rmax) (rangeList_nodup rmin rmax)
      m hm i ((mem_rangeList rmin rmax i).mpr ⟨h1, h2⟩)
    rw [hl, expectedRecord]
    rcases hcond with h | h | ⟨g, hg, hbn, hsp⟩
    · rw [h]
    · rw [h]
    · rw [hg]
      dsimp only
      rw [if_pos (by simp [hbn, hsp])]
  · rintro j h1 h2 ⟨g, hg, hcond⟩
    have hl := initCharGo_lookup raster (rangeList rmin rmax) (rangeList_nodup rmin rmax)
      m hm j ((mem_rangeList rmin rmax j).mpr ⟨h1, h2⟩)
    rw [hl, expectedRecord, hg]
    dsimp only
    rw [if_neg (by rcases hcond with h | h <;> simp [h, Option.isNone_iff_eq_none])]
    by_cases hsp : isspaceChar j
    · rw [if_pos hsp]
      exact ⟨_, rfl⟩
    · rw [if_neg hsp]
      rcases hcond with h | h
      · cases hb : g.bitmap with
        | none => exact absurd hb h
        | some b =>
          simp only [convert_bitmap_to_four_channel_buffer, Option.map_some']
          exact ⟨_, rfl⟩
      · exact absurd h hsp

/-- Witness for C7: in a concrete build, codepoint 37 fails to load and is
absent, while whitespace codepoint 32 is present. -/
theorem C7_skipped_codepoints_witness :
    ∃ m, init_character_map 32 37 wsRaster = some m ∧ lookupChar m 37 = none ∧
      ∃ ch, lookupChar m 32 = some ch := by
  obtain ⟨m, hm, habs, hpres⟩ := C7_skipped_codepoints_absent 32 37 wsRaster
  exact ⟨m, hm, habs 37 (by decide) (by decide) (Or.inl (by decide)),
    hpres 32 (by decide) (by decide)
      ⟨{ advance_x := 640, bitmap := none }, by decide, Or.inr (by decide)⟩⟩

/-- Claim C8: a non-success status from the blit primitive aborts the entire
atlas build: the permanent failure flag is set, the boolean success check
returns false, and no further glyphs are blitted; the packing and blitting
stage fails exactly when a blit fails (the only fatal path there). -/
theorem C8_blit_failure_aborts (rmin rmax : Int) (raster : Int → RasterResult)
    (sigma : List (Int × character) → List (Int × character))
    (m : List (Int × character))
    (hm : init_character_map rmin rmax raster = some m) :
    (Font.build rmin rmax raster sigma).error_ = !(buildPack rmin rmax raster sigma).ok ∧
    Font.toBool (Font.build rmin rmax raster sigma) = (buildPack rmin rmax raster sigma).ok ∧
    ((buildPack rmin rmax raster sigma).ok = true ↔
      (buildPack rmin rmax raster sigma).placed = nonspaceKeys (sigma m)) ∧
    ((buildPack rmin rmax raster sigma).ok = false →
      ∃ t, t ≠ [] ∧
        nonspaceKeys (sigma m) = (buildPack rmin rmax raster sigma).placed ++ t) := by
  rw [Font_build_eq rmin rmax raster sigma m hm, buildPack_eq rmin rmax raster sigma m hm]
  dsimp only [Font.toBool]
  refine ⟨rfl, by simp, ?_, ?_⟩
  · unfold packOf
    exact packLoop_ok_iff_placed _ _ _ _ (sigma m) 5 5 _
  · unfold packOf
    exact packLoop_fail_placed_prefix _ _ _ _ (sigma m) 5 5 _

/-- Witness for C8: the concrete build whose second blit violates the bounds
check aborts with the flag set, the success check false, and only the first
glyph blitted. -/
theorem C8_blit_failure_witness :
    (Font.build 33 34 failRaster id).error_ = true ∧
    Font.toBool (Font.build 33 34 failRaster id) = false ∧
    ∃ t, t ≠ [] ∧ nonspaceKeys (id failMap) = (buildPack 33 34 failRaster id).placed ++ t := by
  have h := C8_blit_failure_aborts 33 34 failRaster id failMap (by decide)
  have hok : (buildPack 33 34 failRaster id).ok = false := by decide
  refine ⟨?_, ?_, h.2.2.2 hok⟩
  · rw [h.1, hok]
    rfl
  · rw [h.2.1, hok]

/-- Counterexample to claim C1 as stated: in a successful build of three
5 by 5 glyphs over the range 33-37 the last record's bottom-right corner has
`x = 30`, equal to the atlas width of 30, so the strict bound
`x < atlas width` is violated while all blits succeed. -/
theorem C1_counterexample :
    (Font.build 33 37 edgeRaster id).error_ = false ∧
    isspaceChar 35 = false ∧
    (lookupChar (Font.build 33 37 edgeRaster id).character_map_ 35).map
        (fun ch => ch.bottom_right.x) = some 30 ∧
    (Font.build 33 37 edgeRaster id).main_atlas_.width = 30 ∧
    ¬ (30 < 30) := by decide

/-- Claim C1 (amended): for every successfully built atlas and every
non-whitespace character record of the store, all four placement corners
satisfy `0 <= x <= atlas width` and `0 <= y <= atlas height` (the right and
bottom corner coordinates can equal the dimension, so the bound is closed,
not half-open). -/
theorem C1_corners_within_closed_box (rmin rmax : Int) (raster : Int → RasterResult)
    (sigma : List (Int × character) → List (Int × character))
    (m : List (Int × character))
    (hm : init_character_map rmin rmax raster = some m)
    (hok : (Font.build rmin rmax raster sigma).error_ = false) :
    ∀ p ∈ (Font.build rmin rmax raster sigma).character_map_, isspaceChar p.1 = false →
      cornerWithin p.2.top_left (Font.build rmin rmax raster sigma).main_atlas_.width
        (Font.build rmin rmax raster sigma).main_atlas_.height ∧
      cornerWithin p.2.top_right (Font.build rmin rmax raster sigma).main_atlas_.width
        (Font.build rmin rmax raster sigma).main_atlas_.height ∧
      cornerWithin p.2.bottom_left (Font.build rmin rmax raster sigma).main_atlas_.width
        (Font.build rmin rmax raster sigma).main_atlas_.height ∧
      cornerWithin p.2.bottom_right (Font.build rmin rmax raster sigma).main_atlas_.width
        (Font.build rmin rmax raster sigma).main_atlas_.height := by
  rw [Font_build_eq rmin rmax raster sigma m hm] at hok ⊢
  dsimp only at hok ⊢
  have hok2 : (packOf rmin rmax (sigma m)).ok = true := by
    cases hpo : (packOf rmin rmax (sigma m)).ok with
    | false => rw [hpo] at hok; simp at hok
    | true => rfl
  intro p hp hns
  unfold packOf at hok2 hp
  obtain ⟨x1, y1, hbw, hbh, htl, htr, hbl, hbr, _h1, _h2, _h3, _h4⟩ :=
    packLoop_ok_bounds (atlasW rmin rmax (sigma m)) (atlasH rmin rmax (sigma m))
      (get_max_character_width (sigma m) + 5) (get_max_character_height (sigma m) + 5)
      (sigma m) 5 5
      (List.replicate (atlasW rmin rmax (sigma m) * atlasH rmin rmax (sigma m) * 4) 0)
      hok2 p hp hns
  rw [htl, htr, hbl, hbr]
  unfold cornerWithin
  dsimp only
  exact ⟨⟨Nat.zero_le _, by omega, Nat.zero_le _, by omega⟩,
    ⟨Nat.zero_le _, by omega, Nat.zero_le _, by omega⟩,
    ⟨Nat.zero_le _, by omega, Nat.zero_le _, by omega⟩,
    ⟨Nat.zero_le _, by omega, Nat.zero_le _, by omega⟩⟩

/-- Witness for the amended C1 at the concrete edge build: the corner of the
record for codepoint 33 lies in the closed box. -/
theorem C1_corners_witness :
    cornerWithin
      ((lookupChar (Font.build 33 37 edgeRaster id).character_map_ 33).getD
        zeroCharacter).bottom_right
      (Font.build 33 37 edgeRaster id).main_atlas_.width
      (Font.build 33 37 edgeRaster id).main_atlas_.height := by
  have h := C1_corners_within_closed_box 33 37 edgeRaster id edgeMap (by decide) (by decide)
  have hlk : lookupChar (Font.build 33 37 edgeRaster id).character_map_ 33 =
      some ((lookupChar (Font.build 33 37 edgeRaster id).character_map_ 33).getD
        zeroCharacter) := rfl
  have hmem := lookupChar_mem _ 33 _ hlk
  exact (h _ hmem (by decide)).2.2.2

/-- Claim C4: for every packed (non-whitespace) character record of a
successful build, each of the four normalized texture-coordinate corners
equals the corresponding pixel placement corner divided componentwise by the
atlas width and height, and lies in `[0, 1]`.  The 32-bit float division of
the source is modelled as exact rational division, which the cast and the
rounding of the actual float32 computation preserve on these magnitudes. -/
theorem C4_uv_normalized (rmin rmax : Int) (raster : Int → RasterResult)
    (sigma : List (Int × character) → List (Int × character))
    (m : List (Int × character))
    (hm : init_character_map rmin rmax raster = some m)
    (hok : (Font.build rmin rmax raster sigma).error_ = false) :
    ∀ p ∈ (Font.build rmin rmax raster sigma).character_map_, isspaceChar p.1 = false →
      (p.2.tex_coords_top_left = p.2.top_left.get_normalized
          (Font.build rmin rmax raster sigma).main_atlas_.width
          (Font.build rmin rmax raster sigma).main_atlas_.height ∧
        p.2.tex_coords_top_right = p.2.top_right.get_normalized
          (Font.build rmin rmax raster sigma).main_atlas_.width
          (Font.build rmin rmax raster sigma).main_atlas_.height ∧
        p.2.tex_coords_bottom_left = p.2.bottom_left.get_normalized
          (Font.build rmin rmax raster sigma).main_atlas_.width
          (Font.build rmin rmax raster sigma).main_atlas_.height ∧
        p.2.tex_coords_bottom_right = p.2.bottom_right.get_normalized
          (Font.build rmin rmax raster sigma).main_atlas_.width
          (Font.build rmin rmax raster sigma).main_atlas_.height) ∧
      inUnit p.2.tex_coords_top_left ∧ inUnit p.2.tex_coords_top_right ∧
      inUnit p.2.tex_coords_bottom_left ∧ inUnit p.2.tex_coords_bottom_right := by
  rw [Font_build_eq rmin rmax raster sigma m hm] at hok ⊢
  dsimp only at hok ⊢
  have hok2 : (packOf rmin rmax (sigma m)).ok = true := by
    cases hpo : (packOf rmin rmax (sigma m)).ok with
    | false => rw [hpo] at hok; simp at hok
    | true => rfl
  have hW : 0 < atlasW rmin rmax (sigma m) := by unfold atlasW; omega
  have hH : 0 < atlasH rmin rmax (sigma m) := by unfold atlasH; omega
  intro p hp hns
  unfold packOf at hok2 hp
  obtain ⟨x1, y1, hbw, hbh, htl, htr, hbl, hbr, h1, h2, h3, h4⟩ :=
    packLoop_ok_bounds (atlasW rmin rmax (sigma m)) (atlasH rmin rmax (sigma m))
      (get_max_character_width (sigma m) + 5) (get_max_character_height (sigma m) + 5)
      (sigma m) 5 5
      (List.replicate (atlasW rmin rmax (sigma m) * atlasH rmin rmax (sigma m) * 4) 0)
      hok2 p hp hns
  refine ⟨⟨by rw [h1, htl], by rw [h2, htr], by rw [h3, hbl], by rw [h4, hbr]⟩, ?_, ?_, ?_, ?_⟩
  · rw [h1]
    exact inUnit_get_normalized x1 y1 _ _ hW hH (by omega) (by omega)
  · rw [h2]
    exact inUnit_get_normalized _ y1 _ _ hW hH (by omega) (by omega)
  · rw [h3]
    exact inUnit_get_normalized x1 _ _ _ hW hH (by omega) (by omega)
  · rw [h4]
    exact inUnit_get_normalized _ _ _ _ hW hH (by omega) (by omega)

/-- Witness for C4 at the concrete edge build: the texture coordinates of the
record for codepoint 35 are its corners normalized by 30 and lie in the unit
square. -/
theorem C4_uv_normalized_witness :
    ((lookupChar (Font.build 33 37 edgeRaster id).character_map_ 35).getD
        zeroCharacter).tex_coords_bottom_right =
      (((lookupChar (Font.build 33 37 edgeRaster id).character_map_ 35).getD
        zeroCharacter).bottom_right).get_normalized
        (Font.build 33 37 edgeRaster id).main_atlas_.width
        (Font.build 33 37 edgeRaster id).main_atlas_.height ∧
    inUnit ((lookupChar (Font.build 33 37 edgeRaster id).character_map_ 35).getD
        zeroCharacter).tex_coords_bottom_right := by
  have h := C4_uv_normalized 33 37 edgeRaster id edgeMap (by decide) (by decide)
  have hlk : lookupChar (Font.build 33 37 edgeRaster id).character_map_ 35 =
      some ((lookupChar (Font.build 33 37 edgeRaster id).character_map_ 35).getD
        zeroCharacter) := rfl
  have hmem := lookupChar_mem _ 35 _ hlk
  exact ⟨(h _ hmem (by decide)).1.2.2.2, (h _ hmem (by decide)).2.2.2.2⟩

/-- Counterexample to claim C2 as stated: the packing loop iterates the
`std::unordered_map` store, whose iteration order the C++ language leaves
unspecified; with the reversed iteration order (a permutation of the
insertion order) the blit trace of a successful build is `[35, 34, 33]`,
which does not walk the codepoints in ascending order. -/
theorem C2_counterexample :
    (List.reverse edgeMap).Perm edgeMap ∧
    (Font.build 33 37 edgeRaster List.reverse).error_ = false ∧
    (buildPack 33 37 edgeRaster List.reverse).placed = [35, 34, 33] ∧
    sortedAscending (buildPack 33 37 edgeRaster List.reverse).placed = false :=
  ⟨List.reverse_perm edgeMap, by decide, by decide, by decide⟩

/-- Claim C2 (amended): packing walks the character store in its iteration
order (which the container does not guarantee to be ascending), skipping
whitespace, with a cursor initialized to `(margin, margin) = (5, 5)`; whenever
`x + glyph.width > atlas_width` the cursor wraps to `x = margin` and `y`
increases by `cell_h + spacing`; after placing a glyph at `(x, y)` the cursor
advances by `x += cell_w + spacing`, where `cell_w` and `cell_h` are the
maximum glyph width and height over the whole store (not the current glyph's
own size).  Stated as: on a successful build the non-whitespace placements
equal the reference cursor walk `specCursorPlacements`, and the blit trace is
exactly the non-whitespace keys in iteration order. -/
theorem C2_pack_follows_cursor (rmin rmax : Int) (raster : Int → RasterResult)
    (sigma : List (Int × character) → List (Int × character))
    (m : List (Int × character))
    (hm : init_character_map rmin rmax raster = some m)
    (hok : (Font.build rmin rmax raster sigma).error_ = false) :
    (((Font.build rmin rmax raster sigma).character_map_.filter
        (fun p => !(isspaceChar p.1))).map (fun p => (p.2.top_left.x, p.2.top_left.y))) =
      specCursorPlacements (Font.build rmin rmax raster sigma).main_atlas_.width
        (get_max_character_width (sigma m)) (get_max_character_height (sigma m))
        (((sigma m).filter (fun p => !(isspaceChar p.1))).map (fun p => p.2.width_)) 5 5 ∧
    (buildPack rmin rmax raster sigma).placed = nonspaceKeys (sigma m) := by
  rw [Font_build_eq rmin rmax raster sigma m hm] at hok ⊢
  rw [buildPack_eq rmin rmax raster sigma m hm]
  dsimp only at hok ⊢
  have hok2 : (packOf rmin rmax (sigma m)).ok = true := by
    cases hpo : (packOf rmin rmax (sigma m)).ok with
    | false => rw [hpo] at hok; simp at hok
    | true => rfl
  constructor
  · unfold packOf at hok2 ⊢
    exact packLoop_spec_cursor (atlasW rmin rmax (sigma m))
      (get_max_character_width (sigma m)) (get_max_character_height (sigma m))
      (atlasH rmin rmax (sigma m)) (sigma m) 5 5 _ hok2
  · unfold packOf at hok2 ⊢
    exact (packLoop_ok_iff_placed _ _ _ _ (sigma m) 5 5 _).mp hok2

/-- Witness for the amended C2 at the concrete edge build with the identity
iteration order. -/
theorem C2_pack_follows_cursor_witness :
    (((Font.build 33 37 edgeRaster id).character_map_.filter
        (fun p => !(isspaceChar p.1))).map (fun p => (p.2.top_left.x, p.2.top_left.y))) =
      specCursorPlacements (Font.build 33 37 edgeRaster id).main_atlas_.width
        (get_max_character_width (id edgeMap)) (get_max_character_height (id edgeMap))
        (((id edgeMap).filter (fun p => !(isspaceChar p.1))).map (fun p => p.2.width_)) 5 5 ∧
    (buildPack 33 37 edgeRaster id).placed = nonspaceKeys (id edgeMap) :=
  C2_pack_follows_cursor 33 37 edgeRaster id edgeMap (by decide) (by decide)

/-- Counterexample to claim C6 as stated: whitespace codepoint 32, rendered
by the rasterizer with the nonzero horizontal advance 640 that FreeType
reports for a space glyph, receives a record whose `advance_x_` metric is 640,
not zero — the record's metrics are copied from the rasterizer, not
zero-filled. -/
theorem C6_counterexample :
    (Font.build 32 37 wsRaster id).error_ = false ∧
    isspaceChar 32 = true ∧
    (lookupChar (Font.build 32 37 wsRaster id).character_map_ 32).map
        (fun ch => ch.advance_x_) = some 640 ∧
    ¬ ((640 : Int) = 0) := by decide

/-- Claim C6 (amended): for every whitespace codepoint of the processed range
whose glyph loads and renders, a character record is created whose metrics
are copied from the rasterizer response, whose bitmap buffer is zero-filled,
and whose placement and UV fields are zero and remain zero after the build;
the codepoint is excluded from packing and blitting: whitespace codepoints
are never blitted, and removing the whitespace entries from the iteration
list leaves the loop outcome, the atlas buffer and the blit trace
unchanged. -/
theorem C6_whitespace_records (rmin rmax : Int) (raster : Int → RasterResult)
    (sigma : List (Int × character) → List (Int × character))
    (m : List (Int × character))
    (hm : init_character_map rmin rmax raster = some m)
    (hperm : (sigma m).Perm m) :
    (∀ i g, rmin ≤ i → i ≤ rmax → isspaceChar i = true → raster i = RasterResult.ok g →
      lookupChar m i = some
        { width_ := g.width, height_ := g.height, x_bearing_ := g.x_bearing,
          y_bearing_ := g.y_bearing, advance_x_ := g.advance_x, advance_y_ := g.advance_y,
          raw_bitmap_buffer := List.replicate (g.height * g.width * 4) 0 }) ∧
    (∀ p ∈ (Font.build rmin rmax raster sigma).character_map_, isspaceChar p.1 = true →
      p.2.top_left = (⟨0, 0⟩ : vector2) ∧ p.2.top_right = (⟨0, 0⟩ : vector2) ∧
      p.2.bottom_left = (⟨0, 0⟩ : vector2) ∧ p.2.bottom_right = (⟨0, 0⟩ : vector2) ∧
      p.2.tex_coords_top_left = (⟨0, 0⟩ : vector2f) ∧
      p.2.tex_coords_top_right = (⟨0, 0⟩ : vector2f) ∧
      p.2.tex_coords_bottom_left = (⟨0, 0⟩ : vector2f) ∧
      p.2.tex_coords_bottom_right = (⟨0, 0⟩ : vector2f)) ∧
    (∀ c, isspaceChar c = true → c ∉ (buildPack rmin rmax raster sigma).placed) ∧
    ((packLoop (atlasW rmin rmax (sigma m)) (atlasH rmin rmax (sigma m))
        (get_max_character_width (sigma m) + 5) (get_max_character_height (sigma m) + 5)
        ((sigma m).filter (fun p => !(isspaceChar p.1))) 5 5
        (List.replicate (atlasW rmin rmax (sigma m) * atlasH rmin rmax (sigma m) * 4) 0)).ok =
      (buildPack rmin rmax raster sigma).ok ∧
     (packLoop (atlasW rmin rmax (sigma m)) (atlasH rmin rmax (sigma m))
        (get_max_character_width (sigma m) + 5) (get_max_character_height (sigma m) + 5)
        ((sigma m).filter (fun p => !(isspaceChar p.1))) 5 5
        (List.replicate (atlasW rmin rmax (sigma m) * atlasH rmin rmax (sigma m) * 4) 0)).buffer =
      (buildPack rmin rmax raster sigma).buffer ∧
     (packLoop (atlasW rmin rmax (sigma m)) (atlasH rmin rmax (sigma m))
        (get_max_character_width (sigma m) + 5) (get_max_character_height (sigma m) + 5)
        ((sigma m).filter (fun p => !(isspaceChar p.1))) 5 5
        (List.replicate (atlasW rmin rmax (sigma m) * atlasH rmin rmax (sigma m) * 4) 0)).placed =
      (buildPack rmin rmax raster sigma).placed) := by
  refine ⟨?_, ?_, ?_, ?_⟩
  · intro i g h1 h2 hsp hg
    have hl := initCharGo_lookup raster (rangeList rmin rmax) (rangeList_nodup rmin rmax)
      m hm i ((mem_rangeList rmin rmax i).mpr ⟨h1, h2⟩)
    rw [hl, expectedRecord, hg]
    dsimp only
    rw [if_neg (by simp [hsp]), if_pos hsp]
  · intro p hp hsp
    rw [Font_build_eq rmin rmax raster sigma m hm] at hp
    dsimp only at hp
    unfold packOf at hp
    have hpm : p ∈ sigma m :=
      packLoop_space_entries (atlasW rmin rmax (sigma m)) (atlasH rmin rmax (sigma m))
        (get_max_character_width (sigma m) + 5) (get_max_character_height (sigma m) + 5)
        (sigma m) 5 5 _ p hp hsp
    exact initCharGo_geometry_zero raster (rangeList rmin rmax) m hm p
      (hperm.mem_iff.mp hpm)
  · intro c hsp hc
    rw [buildPack_eq rmin rmax raster sigma m hm] at hc
    unfold packOf at hc
    obtain ⟨t, ht⟩ := packLoop_placed_prefix (atlasW rmin rmax (sigma m))
      (atlasH rmin rmax (sigma m)) (get_max_character_width (sigma m) + 5)
      (get_max_character_height (sigma m) + 5) (sigma m) 5 5
      (List.replicate (atlasW rmin rmax (sigma m) * atlasH rmin rmax (sigma m) * 4) 0)
    have hcm : c ∈ nonspaceKeys (sigma m) := by
      rw [ht]
      exact List.mem_append_left _ hc
    rw [mem_nonspaceKeys_isspace (sigma m) c hcm] at hsp
    exact Bool.noConfusion hsp
  · rw [buildPack_eq rmin rmax raster sigma m hm]
    unfold packOf
    rw [packLoop_filter_nonspace (atlasW rmin rmax (sigma m)) (atlasH rmin rmax (sigma m))
      (get_max_character_width (sigma m) + 5) (get_max_character_height (sigma m) + 5)
      (sigma m) 5 5 (List.replicate (atlasW rmin rmax (sigma m) * atlasH rmin rmax (sigma m) * 4) 0)]
    exact ⟨rfl, rfl, rfl⟩

/-- Witness for the amended C6: in the concrete whitespace build, codepoint 32
gets the record with the rasterizer metrics (advance 640) and empty zero
bitmap, and 32 is never blitted. -/
theorem C6_whitespace_witness :
    lookupChar wsMap 32 = some
      { width_ := 0, height_ := 0, x_bearing_ := 0, y_bearing_ := 0,
        advance_x_ := 640, advance_y_ := 0,
        raw_bitmap_buffer := List.replicate (0 * 0 * 4) 0 } ∧
    (32 : Int) ∉ (buildPack 32 37 wsRaster id).placed := by
  have h := C6_whitespace_records 32 37 wsRaster id wsMap (by decide) (List.Perm.refl _)
  exact ⟨h.1 32 { advance_x := 640, bitmap := none } (by decide) (by decide) (by decide)
    (by decide), h.2.2.1 32 (by decide)⟩

end TextToTextureAtlas
